import Mathlib

/-!
Verification of the connector-hosting runtime of the tanoshi repository
(`internal/source/source.go`).  The Go code drives an embedded Lua
interpreter (gopher-lua): every host operation calls a named Lua entry
point in protected mode and then inspects the returned Lua value.  We
embed the host-side logic shallowly: the outcome of one protected Lua
call (`callLuaFunc` + reading the top of the stack) is a parameter of
type `ScriptCall`, the HTTP transport (`http.Client.Do`) is a parameter
function, and all header bookkeeping (`net/http.Header`, which
canonicalises keys via `net/textproto`) is modelled explicitly.
-/

/-! ## net/textproto canonical MIME header keys

`http.Header.Add/Set/Del/Get` all canonicalise their key argument with
`textproto.CanonicalMIMEHeaderKey`: if every byte of the key is a valid
header-field token byte, the first letter and each letter following a
hyphen are upper-cased and all other letters lower-cased; otherwise the
key is returned unchanged. -/

/-- `textproto.validHeaderFieldByte`: ASCII letters and digits plus the
token punctuation set (codes 33, 35, 36, 37, 38, 39, 42, 43, 45, 46,
94, 95, 96, 124, 126). -/
def validHeaderFieldByte (c : Char) : Bool :=
  c.isAlpha || c.isDigit ||
  c = Char.ofNat 33 || c = Char.ofNat 35 || c = Char.ofNat 36 ||
  c = Char.ofNat 37 || c = Char.ofNat 38 || c = Char.ofNat 39 ||
  c = Char.ofNat 42 || c = Char.ofNat 43 || c = Char.ofNat 45 ||
  c = Char.ofNat 46 || c = Char.ofNat 94 || c = Char.ofNat 95 ||
  c = Char.ofNat 96 || c = Char.ofNat 124 || c = Char.ofNat 126

/-- The case-fixing loop of `textproto.canonicalMIMEHeaderKey`: `upper`
says whether the next letter must be upper-cased; after each character
`upper` becomes "this character was a hyphen". -/
def canonicalizeChars : Bool → List Char → List Char
  | _, [] => []
  | upper, c :: cs =>
    let d := if upper then c.toUpper else c.toLower
    d :: canonicalizeChars (d = Char.ofNat 45) cs

/-- `textproto.CanonicalMIMEHeaderKey`. -/
def canonicalMIMEHeaderKey (s : String) : String :=
  if s.toList.all validHeaderFieldByte then
    String.mk (canonicalizeChars true s.toList)
  else s

/-! ## net/http.Header

A header is a finite map from canonical key to an ordered list of
values; we model it as a total function defaulting to `[]` (Go's
absent-key and empty-slice states are indistinguishable through the
`Header` API used by this code). -/

def HeaderMap : Type := String → List String

def emptyHeader : HeaderMap := fun _ => []

/-- `Header.Del`. -/
def hDel (h : HeaderMap) (k : String) : HeaderMap :=
  fun q => if q = canonicalMIMEHeaderKey k then [] else h q

/-- `Header.Add`: appends to the value list of the canonical key. -/
def hAdd (h : HeaderMap) (k v : String) : HeaderMap :=
  fun q => if q = canonicalMIMEHeaderKey k then h q ++ [v] else h q

/-- `Header.Set`: replaces the value list of the canonical key. -/
def hSet (h : HeaderMap) (k v : String) : HeaderMap :=
  fun q => if q = canonicalMIMEHeaderKey k then [v] else h q

/-- `Header.Get`: first value of the canonical key, `""` if none. -/
def hGet (h : HeaderMap) (k : String) : String :=
  match h (canonicalMIMEHeaderKey k) with
  | [] => ""
  | v :: _ => v

/-! ## Domain records

Modelled from the spec: the Go file declaring the `Manga`, `Chapter`
and `Page` structs is not under `src/`; the fields below are the ones
the spec's data model names and `source.go`/`repository.go` use
(`ID`, `Source`, `Path`, `MangaID`, `Rank`, `Language`). -/

structure Manga where
  ID : Nat
  Source : String
  Path : String
  Title : String
deriving DecidableEq, Repr

structure Chapter where
  ID : Nat
  MangaID : Nat
  Source : String
  Language : String
  Rank : Nat
  Title : String
deriving DecidableEq, Repr

structure Page where
  ID : Nat
  ChapterID : Nat
  URL : String
deriving DecidableEq, Repr

/-! ## Lua values (gopher-lua)

`LValue` models the dynamic values the host inspects after a Lua call.
A table is its entry list in iteration order (`LTable.ForEach` walks
the array part in order, then the hash part; the scripts under test
return array-style tables, so a plain list is faithful).  Userdata
carries the wrapped Go value (`LUserData.Value`). -/

/-- A Go value stored inside a `*lua.LUserData`.  `strMap` is a
`map[string]string` wrapped by `luar.New` (used for the login
credential table); `other` stands for any other wrapped Go value. -/
inductive GoValue where
  | manga (m : Manga)
  | chapter (c : Chapter)
  | page (p : Page)
  | strMap (entries : List (String × String))
  | other
deriving DecidableEq, Repr

inductive LValue where
  | nil
  | boolean (b : Bool)
  | num (n : Int)
  | str (s : String)
  | table (entries : List (LValue × LValue))
  | userdata (v : GoValue)
  | fn

/-- gopher-lua `LValue.String()`.  `LNil` prints `"nil"`, booleans and
integral numbers print as in Go, strings print themselves.  Tables,
userdata and functions print their address; addresses are not modelled,
so a fixed placeholder stands in (no claim depends on these cases). -/
def LValue.goString : LValue → String
  | .nil => "nil"
  | .boolean b => if b then "true" else "false"
  | .num n => toString n
  | .str s => s
  | .table _ => "table: 0x0"
  | .userdata _ => "userdata: 0x0"
  | .fn => "function: 0x0"

/-- `LTable.RawGetString`: value stored under a string key, `LNil` when
absent (table keys are unique, so first match suffices). -/
def rawGetString (entries : List (LValue × LValue)) (k : String) : LValue :=
  match entries with
  | [] => .nil
  | (key, v) :: rest =>
    match key with
    | .str s => if s = k then v else rawGetString rest k
    | _ => rawGetString rest k

/-! ## Host-side error outcomes

The Go functions return `error`; additionally two places can panic
(an unprotected `CheckString` raise and unchecked type assertions).
`Err.script` is an error captured by a protected Lua call,
`Err.protocol` an `errors.New` shape error, `Err.badRequest` an
`http.NewRequest` failure, `Err.transport` an `http.Client.Do`
failure, and `Err.goPanic` an unrecovered host-level panic. -/

inductive Err where
  | script (msg : String)
  | protocol (msg : String)
  | badRequest (msg : String)
  | transport (msg : String)
  | goPanic (msg : String)
deriving DecidableEq, Repr

/-- Outcome of one `callLuaFunc` invocation (`Protect: true`, one
return value): either the Lua error captured by the protected call, or
the value left on top of the stack. -/
def ScriptCall : Type := Except String LValue

/-! ## The Source connector

Go `Source` additionally owns the `*lua.LState` and the
`*http.Client`; those live outside the pure state and appear as the
`ScriptCall`/transport parameters of each operation. -/

structure Source where
  Name : String
  URL : String
  header : HeaderMap

structure SourceResponse where
  Header : List (String × List String)
  Body : String

/-- `LState.CheckString(1)` applied to the single value returned by a
protected call: an `LString` (or an `LNumber`, which gopher-lua
converts) yields the string; any other value raises a Lua type error
outside any protected frame, i.e. an unrecovered host panic. -/
def checkString : LValue → Except Err String
  | .str s => .ok s
  | .num n => .ok (toString n)
  | _ => .error (.goPanic "string expected")

/-- `Source.getName`: call the `name` entry point, then `CheckString`
the result (the Go method stores the string into `s.Name`; we return
it). -/
def getName (call : ScriptCall) : Except Err String :=
  match call with
  | .error e => .error (.script e)
  | .ok lv => checkString lv

/-- `Source.getBaseURL`: call the `base_url` entry point, then
`CheckString` the result. -/
def getBaseURL (call : ScriptCall) : Except Err String :=
  match call with
  | .error e => .error (.script e)
  | .ok lv => checkString lv

/-- `LoadSourceFromPath`: run the script file (`DoFile`, whose outcome
is the `doFile` parameter), then resolve `name` and `base_url`; any
failure discards the state and returns the error.  On success the
connector starts with the empty header set (`make(http.Header)`). -/
def LoadSourceFromPath (doFile : Except String Unit)
    (nameCall : ScriptCall) (urlCall : ScriptCall) : Except Err Source :=
  match doFile with
  | .error e => .error (.script e)
  | .ok _ =>
    match getName nameCall with
    | .error e => .error e
    | .ok nm =>
      match getBaseURL urlCall with
      | .error e => .error e
      | .ok u => .ok { Name := nm, URL := u, header := emptyHeader }

/-! ## HTTP Execution Engine (`headerBuilder`, `createRequest`) -/

/-- `Source.headerBuilder`: clone the session headers (an absent map
clones to the empty map, which the total-function model already gives),
then `Set("User-Agent", "Tanoshi/0.1.0")`. -/
def headerBuilder (s : Source) : HeaderMap :=
  hSet s.header "User-Agent" "Tanoshi/0.1.0"

/-- Request body.  The only encoding `createRequest` performs is
multipart form data; otherwise the buffer stays empty. -/
inductive Body where
  | empty
  | multipart (fields : List (String × String)) (boundary : String)
deriving Repr

/-- `mime/multipart Writer.FormDataContentType()` with the writer's
boundary (randomly generated in Go; a parameter here). -/
def formDataContentType (boundary : String) : String :=
  "multipart/form-data; boundary=" ++ boundary

/-- Models `net/url.Parse` success: Go rejects ASCII control
characters in a URL; other parse failures do not arise for the inputs
considered here. -/
def urlParseable (u : String) : Bool :=
  u.toList.all (fun c => !(c.toNat < 32 || c.toNat = 127))

/-- `net/http` method validity (every byte a header token byte). -/
def validMethod (m : String) : Bool :=
  m.length != 0 && m.toList.all validHeaderFieldByte

structure HttpRequest where
  method : String
  url : String
  body : Body
  header : HeaderMap

/-- Models `net/http.NewRequest`: an empty method means `GET`; an
invalid method or unparseable URL is an error; the request starts with
an empty header map (`createRequest` overwrites it wholesale). -/
def newRequest (method url : String) (body : Body) : Except Err HttpRequest :=
  let m := if method = "" then "GET" else method
  if validMethod m then
    if urlParseable url then
      .ok { method := m, url := url, body := body, header := emptyHeader }
    else .error (.badRequest "net/url: invalid control character in URL")
  else .error (.badRequest "net/http: invalid method")

/-- The descriptor-header merge loop of `createRequest`:
`headers.ForEach(... headerMap.Set(k.String(), v.String()))`. -/
def setDescriptorHeaders (h : HeaderMap) (hs : List (LValue × LValue)) : HeaderMap :=
  hs.foldl (fun h kv => hSet h kv.1.goString kv.2.goString) h

/-- Base headers plus descriptor headers, when the descriptor carries a
`header` table. -/
def mergedHeaderMap (s : Source) (entries : List (LValue × LValue)) : HeaderMap :=
  match rawGetString entries "header" with
  | .table hs => setDescriptorHeaders (headerBuilder s) hs
  | _ => headerBuilder s

/-- The body-encoding switch of `createRequest`: with a `data` table
and a resolved `Content-Type` of exactly `multipart/form-data`, the
fields are written as multipart form data and `Content-Type` is reset
to the encoder's boundary-bearing value; any other case leaves the
buffer empty and the headers untouched. -/
def encodeBody (hm : HeaderMap) (boundary : String)
    (entries : List (LValue × LValue)) : Body × HeaderMap :=
  match rawGetString entries "data" with
  | .table ds =>
    if hGet hm "Content-Type" = "multipart/form-data" then
      (Body.multipart (ds.map (fun kv => (kv.1.goString, kv.2.goString))) boundary,
       hSet hm "Content-Type" (formDataContentType boundary))
    else (Body.empty, hm)
  | _ => (Body.empty, hm)

/-- `Source.createRequest`: the value on top of the stack must be a
table; base headers are built, descriptor headers `Set` over them, the
body encoded, `method` and `url` read with `RawGetString(...).String()`
(an absent field is `LNil`, which stringifies to `"nil"`), the request
built and its header map replaced wholesale. -/
def createRequest (s : Source) (boundary : String) (lv : LValue) :
    Except Err HttpRequest :=
  match lv with
  | .table entries =>
    let hm := mergedHeaderMap s entries
    let bh := encodeBody hm boundary entries
    let method := (rawGetString entries "method").goString
    let url := (rawGetString entries "url").goString
    match newRequest method url bh.1 with
    | .error e => .error e
    | .ok r => .ok { r with header := bh.2 }
  | _ => .error (.protocol "table expected")

/-- `Source.doRequest`: perform the call on the owned client and wrap
the response headers and body; a client error aborts. -/
def doRequest (transport : HttpRequest → Except String SourceResponse)
    (req : HttpRequest) : Except Err SourceResponse :=
  match transport req with
  | .error e => .error (.transport e)
  | .ok resp => .ok resp

/-- The shared describe-phase tail (`createRequest` then `doRequest`)
of every `*Request` method, applied to the describe entry point's
outcome. -/
def requestPhase (s : Source) (boundary : String) (call : ScriptCall)
    (transport : HttpRequest → Except String SourceResponse) :
    Except Err SourceResponse :=
  match call with
  | .error e => .error (.script e)
  | .ok lv =>
    match createRequest s boundary lv with
    | .error e => .error e
    | .ok req => doRequest transport req

/-! ## Parse phase -/

/-- The `tbl.ForEach` body of `Source.getLatestUpdates`: an entry that
is userdata wrapping a `*Manga` is stamped with the source name and
appended; everything else is skipped. -/
def latestStep (srcName : String) (acc : List Manga) (kv : LValue × LValue) :
    List Manga :=
  match kv.2 with
  | .userdata (.manga m) => acc ++ [{ m with Source := srcName }]
  | _ => acc

/-- `Source.getLatestUpdates`: if the returned value is a table, fold
`latestStep` over its entries; a non-table result yields the empty
list with no error. -/
def getLatestUpdates (s : Source) (call : ScriptCall) :
    Except Err (List Manga) :=
  match call with
  | .error e => .error (.script e)
  | .ok lv =>
    match lv with
    | .table es => .ok (es.foldl (latestStep s.Name) [])
    | _ => .ok []

/-- The `tbl.ForEach` body of `Source.getChapters` (stamps the source
name onto each unwrapped `*Chapter`). -/
def chaptersStep (srcName : String) (acc : List Chapter) (kv : LValue × LValue) :
    List Chapter :=
  match kv.2 with
  | .userdata (.chapter c) => acc ++ [{ c with Source := srcName }]
  | _ => acc

/-- `Source.getChapters`: same shape as `getLatestUpdates` over
`*Chapter` values. -/
def getChapters (s : Source) (call : ScriptCall) :
    Except Err (List Chapter) :=
  match call with
  | .error e => .error (.script e)
  | .ok lv =>
    match lv with
    | .table es => .ok (es.foldl (chaptersStep s.Name) [])
    | _ => .ok []

/-- The `tbl.ForEach` body of `Source.fetchManga` (no source stamp). -/
def fetchStep (acc : List Manga) (kv : LValue × LValue) : List Manga :=
  match kv.2 with
  | .userdata (.manga m) => acc ++ [m]
  | _ => acc

/-- `Source.fetchManga`: same shape over `*Manga` values but with no
source stamp. -/
def fetchManga (s : Source) (call : ScriptCall) :
    Except Err (List Manga) :=
  match call with
  | .error e => .error (.script e)
  | .ok lv =>
    match lv with
    | .table es => .ok (es.foldl fetchStep [])
    | _ => .ok []

/-- `Source.getMangaDetails`: the returned value is cast with the
unchecked assertions `lv.(*lua.LUserData)` and `ud.Value.(*Manga)`; a
value that is not userdata, or userdata wrapping something else,
panics.  On success the source name is stamped. -/
def getMangaDetails (s : Source) (call : ScriptCall) : Except Err Manga :=
  match call with
  | .error e => .error (.script e)
  | .ok lv =>
    match lv with
    | .userdata (.manga m) => .ok { m with Source := s.Name }
    | .userdata _ =>
      .error (.goPanic "interface conversion: interface is not *source.Manga")
    | _ => .error (.goPanic "interface conversion: lua.LValue is not *lua.LUserData")

/-- `Source.getChapter`: same unchecked casts over `*Chapter`; no
source stamp and no ID fixup here. -/
def getChapter (call : ScriptCall) : Except Err Chapter :=
  match call with
  | .error e => .error (.script e)
  | .ok lv =>
    match lv with
    | .userdata (.chapter c) => .ok c
    | .userdata _ =>
      .error (.goPanic "interface conversion: interface is not *source.Chapter")
    | _ => .error (.goPanic "interface conversion: lua.LValue is not *lua.LUserData")

/-! ## Public operations (describe → execute → parse chains)

Each chain takes the describe entry point's outcome (`reqCall`), the
transport, and the parse entry point's behaviour as a function of the
response body it is invoked with. -/

/-- `Source.GetLatestUpdates`. -/
def GetLatestUpdates (s : Source) (boundary : String) (reqCall : ScriptCall)
    (transport : HttpRequest → Except String SourceResponse)
    (parseCall : String → ScriptCall) : Except Err (List Manga) :=
  match requestPhase s boundary reqCall transport with
  | .error e => .error e
  | .ok res => getLatestUpdates s (parseCall res.Body)

/-- `Source.GetMangaDetails`: on success the input manga's ID is copied
onto the result. -/
def GetMangaDetails (s : Source) (boundary : String) (reqCall : ScriptCall)
    (transport : HttpRequest → Except String SourceResponse)
    (parseCall : String → ScriptCall) (m : Manga) : Except Err Manga :=
  match requestPhase s boundary reqCall transport with
  | .error e => .error e
  | .ok res =>
    match getMangaDetails s (parseCall res.Body) with
    | .error e => .error e
    | .ok manga => .ok { manga with ID := m.ID }

/-- `Source.GetChapters`. -/
def GetChapters (s : Source) (boundary : String) (reqCall : ScriptCall)
    (transport : HttpRequest → Except String SourceResponse)
    (parseCall : String → ScriptCall) : Except Err (List Chapter) :=
  match requestPhase s boundary reqCall transport with
  | .error e => .error e
  | .ok res => getChapters s (parseCall res.Body)

/-- `Source.GetChapter`: on success the input chapter's ID is copied
onto the result (and nothing else is touched). -/
def GetChapter (s : Source) (boundary : String) (reqCall : ScriptCall)
    (transport : HttpRequest → Except String SourceResponse)
    (parseCall : String → ScriptCall) (c : Chapter) : Except Err Chapter :=
  match requestPhase s boundary reqCall transport with
  | .error e => .error e
  | .ok res =>
    match getChapter (parseCall res.Body) with
    | .error e => .error e
    | .ok chapter => .ok { chapter with ID := c.ID }

/-! ## Login -/

/-- The credential map `loginRequest` builds and passes to the
`login_request` entry point: Go writes a fresh `map[string]string`
with these four entries; `remember` is never read and `remember_me` is
always the string `"1"`. -/
def loginParam (username password twoFactor : String) (remember : Bool) :
    List (String × String) :=
  [("username", username), ("password", password),
   ("two_factor", twoFactor), ("remember_me", "1")]

/-- `Source.loginRequest`: call `login_request` with the credential map
wrapped by `luar.New`, then run the describe-phase tail. -/
def loginRequest (s : Source) (boundary : String)
    (username password twoFactor : String) (remember : Bool)
    (reqScript : LValue → ScriptCall)
    (transport : HttpRequest → Except String SourceResponse) :
    Except Err SourceResponse :=
  requestPhase s boundary
    (reqScript (.userdata (.strMap (loginParam username password twoFactor remember))))
    transport

/-- The inner `values.ForEach` loop of `Source.login`: add every value
of the script's list under key `k`. -/
def loginAddValues (k : String) (values : List (LValue × LValue))
    (h : HeaderMap) : HeaderMap :=
  values.foldl (fun h iw => hAdd h k iw.2.goString) h

/-- One entry of the script's result table: a table value replaces the
key's whole list (`Del` then repeated `Add`); any other value is
skipped. -/
def loginStep (h : HeaderMap) (kv : LValue × LValue) : HeaderMap :=
  match kv.2 with
  | .table values => loginAddValues kv.1.goString values (hDel h kv.1.goString)
  | _ => h

/-- The outer `tbl.ForEach` loop of `Source.login`. -/
def loginMerge (h : HeaderMap) (entries : List (LValue × LValue)) : HeaderMap :=
  entries.foldl loginStep h

/-- `Source.login` (parse phase): call the `login` entry point with the
response headers and body; a table result updates the session headers
through `loginMerge`; anything else is the error `Table expected`. -/
def login (s : Source) (resp : SourceResponse)
    (call : List (String × List String) → String → ScriptCall) :
    Except Err Source :=
  match call resp.Header resp.Body with
  | .error e => .error (.script e)
  | .ok lv =>
    match lv with
    | .table entries => .ok { s with header := loginMerge s.header entries }
    | _ => .error (.protocol "Table expected")

/-- `Source.Login`: `loginRequest` then `login`; the new connector
state (with updated session headers) is the result. -/
def Login (s : Source) (boundary : String)
    (username password twoFactor : String) (remember : Bool)
    (reqScript : LValue → ScriptCall)
    (transport : HttpRequest → Except String SourceResponse)
    (parseCall : List (String × List String) → String → ScriptCall) :
    Except Err Source :=
  match loginRequest s boundary username password twoFactor remember reqScript transport with
  | .error e => .error e
  | .ok resp => login s resp parseCall

/-! ## Spec-side characterisations

Per-entry extraction functions used to state what the list-returning
parse loops compute: the valid entries in table order. -/

/-- A list entry of `get_latest_updates`: userdata wrapping a `*Manga`
unwraps (stamped with the source name); anything else is skipped. -/
def mangaOfEntry (srcName : String) (kv : LValue × LValue) : Option Manga :=
  match kv.2 with
  | .userdata (.manga m) => some { m with Source := srcName }
  | _ => none

/-- A list entry of `get_chapters`. -/
def chapterOfEntry (srcName : String) (kv : LValue × LValue) : Option Chapter :=
  match kv.2 with
  | .userdata (.chapter c) => some { c with Source := srcName }
  | _ => none

/-- A list entry of `fetch_manga` (no stamp). -/
def fetchMangaOfEntry (kv : LValue × LValue) : Option Manga :=
  match kv.2 with
  | .userdata (.manga m) => some m
  | _ => none

/-! ## Concrete fixtures for counterexamples and witnesses -/

/-- A connector whose session headers carry a `User-Agent` obtained
from a login flow. -/
def sessionUASource : Source :=
  { Name := "src", URL := "http://s.example",
    header := hAdd emptyHeader "User-Agent" "SessionAgent" }

/-- A connector with empty session headers. -/
def plainSource : Source :=
  { Name := "src", URL := "http://s.example", header := emptyHeader }

/-- A minimal descriptor: method and url only. -/
def plainDescriptor : LValue :=
  .table [(.str "method", .str "GET"), (.str "url", .str "http://e.example")]

/-- A descriptor that sets `Content-Type: multipart/form-data` and
carries a `data` table. -/
def multipartDescriptor : LValue :=
  .table [(.str "method", .str "POST"), (.str "url", .str "http://e.example"),
          (.str "header", .table [(.str "Content-Type", .str "multipart/form-data")]),
          (.str "data", .table [(.str "a", .str "b")])]

/-- Projection of a request-build outcome to the header values of one
key (for closed statements about `createRequest`). -/
def builtHeaderValues (r : Except Err HttpRequest) (k : String) : Option (List String) :=
  (r.toOption).map (fun req => req.header k)

/-- Projection of a request-build outcome to its method and url. -/
def builtMethodUrl (r : Except Err HttpRequest) : Option (String × String) :=
  (r.toOption).map (fun req => (req.method, req.url))

/-- Session state before the concrete login flow: two stale `Cookie`
values and an unrelated key. -/
def loginWitnessSource : Source :=
  { Name := "src", URL := "http://s.example",
    header := hAdd (hAdd (hAdd emptyHeader "Cookie" "old1") "Cookie" "old2") "Other" "keep" }

def loginWitnessResp : SourceResponse :=
  { Header := [("Set-Cookie", ["sid=1"])], Body := "body" }

/-- A login parse entry point returning a table that maps `Cookie` to
the single replacement value `new`. -/
def loginWitnessCall : List (String × List String) → String → ScriptCall :=
  fun _ _ => .ok (.table [(.str "Cookie", .table [(.num 1, .str "new")])])

/-- Whether a Lua value is a table (the `dataOk`/`headersOk` checks of
`createRequest`). -/
def isTableB : LValue → Bool
  | .table _ => true
  | _ => false

/-- A descriptor that sets its own `User-Agent` header. -/
def overrideDescriptor : LValue :=
  .table [(.str "method", .str "GET"), (.str "url", .str "http://e.example"),
          (.str "header", .table [(.str "User-Agent", .str "DescriptorAgent")])]

/-- The connector `Load` returns for a script whose `name` entry point
returns the empty string. -/
def loadedEmptyNameSource : Source :=
  { Name := "", URL := "http://x", header := emptyHeader }

/-- Input chapter carrying the caller-side identity. -/
def wChapterIn : Chapter :=
  { ID := 42, MangaID := 0, Source := "", Language := "", Rank := 0, Title := "" }

/-- Chapter as the connector's parse phase built it: different ID, its
own `Source` value. -/
def wChapterParsed : Chapter :=
  { ID := 7, MangaID := 3, Source := "ScriptSource", Language := "en", Rank := 1,
    Title := "t" }

/-- A transport that answers every request with a fixed page. -/
def wTransport : HttpRequest → Except String SourceResponse :=
  fun _ => .ok { Header := [], Body := "page" }

/-! ## Helper lemmas -/

theorem sanity_canonical_user_agent :
    canonicalMIMEHeaderKey "user-agent" = "User-Agent" := by decide

theorem hSet_at_self (h : HeaderMap) (k v : String) :
    hSet h k v (canonicalMIMEHeaderKey k) = [v] := by
  simp [hSet]

theorem hSet_at_ne (h : HeaderMap) (k v q : String)
    (hq : q ≠ canonicalMIMEHeaderKey k) : hSet h k v q = h q := by
  simp [hSet, hq]

theorem hAdd_at_self (h : HeaderMap) (k v : String) :
    hAdd h k v (canonicalMIMEHeaderKey k) = h (canonicalMIMEHeaderKey k) ++ [v] := by
  simp [hAdd]

theorem hAdd_at_ne (h : HeaderMap) (k v q : String)
    (hq : q ≠ canonicalMIMEHeaderKey k) : hAdd h k v q = h q := by
  simp [hAdd, hq]

theorem hDel_at_self (h : HeaderMap) (k : String) :
    hDel h k (canonicalMIMEHeaderKey k) = [] := by
  simp [hDel]

theorem hDel_at_ne (h : HeaderMap) (k q : String)
    (hq : q ≠ canonicalMIMEHeaderKey k) : hDel h k q = h q := by
  simp [hDel, hq]

theorem foldl_collect {α β : Type} (f : α → Option β) (step : List β → α → List β)
    (hstep : ∀ acc x, step acc x = acc ++ (f x).toList) :
    ∀ (l : List α) (acc : List β), l.foldl step acc = acc ++ l.filterMap f := by
  intro l
  induction l with
  | nil => intro acc; simp
  | cons x xs ih =>
    intro acc
    rw [List.foldl_cons, hstep, List.filterMap_cons]
    cases h : f x with
    | none => simp [ih]
    | some b => simp [ih]

theorem length_filterMap_add {α β : Type} (f : α → Option β) (l : List α) :
    (l.filterMap f).length + (l.filter (fun x => (f x).isNone)).length
      = l.length := by
  induction l with
  | nil => rfl
  | cons x xs ih =>
    rw [List.filterMap_cons, List.filter_cons]
    cases h : f x <;> simp [h] <;> omega

theorem latestStep_eq (n : String) (acc : List Manga) (kv : LValue × LValue) :
    latestStep n acc kv = acc ++ (mangaOfEntry n kv).toList := by
  obtain ⟨k, v⟩ := kv
  unfold latestStep mangaOfEntry
  cases v
  case userdata g => cases g <;> simp
  all_goals simp

theorem chaptersStep_eq (n : String) (acc : List Chapter) (kv : LValue × LValue) :
    chaptersStep n acc kv = acc ++ (chapterOfEntry n kv).toList := by
  obtain ⟨k, v⟩ := kv
  unfold chaptersStep chapterOfEntry
  cases v
  case userdata g => cases g <;> simp
  all_goals simp

theorem fetchStep_eq (acc : List Manga) (kv : LValue × LValue) :
    fetchStep acc kv = acc ++ (fetchMangaOfEntry kv).toList := by
  obtain ⟨k, v⟩ := kv
  unfold fetchStep fetchMangaOfEntry
  cases v
  case userdata g => cases g <;> simp
  all_goals simp

/-- C6: for every list-returning parse call (`get_latest_updates`,
`get_chapters`, `fetch_manga`) whose script result is a table, the call
returns exactly the entries that unwrap to the expected native record,
in table order, with no error; the result length is the table length
minus the number of malformed entries. -/
theorem list_parse_skips_invalid (s : Source) (es : List (LValue × LValue)) :
    getLatestUpdates s (.ok (.table es)) = .ok (es.filterMap (mangaOfEntry s.Name))
    ∧ getChapters s (.ok (.table es)) = .ok (es.filterMap (chapterOfEntry s.Name))
    ∧ fetchManga s (.ok (.table es)) = .ok (es.filterMap fetchMangaOfEntry)
    ∧ (es.filterMap (mangaOfEntry s.Name)).length
        + (es.filter (fun kv => (mangaOfEntry s.Name kv).isNone)).length = es.length
    ∧ (es.filterMap (chapterOfEntry s.Name)).length
        + (es.filter (fun kv => (chapterOfEntry s.Name kv).isNone)).length = es.length
    ∧ (es.filterMap fetchMangaOfEntry).length
        + (es.filter (fun kv => (fetchMangaOfEntry kv).isNone)).length = es.length := by
  refine ⟨?_, ?_, ?_, ?_, ?_, ?_⟩
  · show Except.ok (es.foldl (latestStep s.Name) []) = _
    rw [foldl_collect (mangaOfEntry s.Name) (latestStep s.Name) (latestStep_eq s.Name) es []]
    simp
  · show Except.ok (es.foldl (chaptersStep s.Name) []) = _
    rw [foldl_collect (chapterOfEntry s.Name) (chaptersStep s.Name) (chaptersStep_eq s.Name) es []]
    simp
  · show Except.ok (es.foldl fetchStep []) = _
    rw [foldl_collect fetchMangaOfEntry fetchStep fetchStep_eq es []]
    simp
  · exact length_filterMap_add _ es
  · exact length_filterMap_add _ es
  · exact length_filterMap_add _ es

/-- C8: every script entry-point invocation is protected: a runtime
fault inside the script surfaces from each host operation as a
returned `Err.script` error value, never as a host-level fault. -/
theorem script_fault_returned_as_error (s : Source) (e b : String)
    (resp : SourceResponse)
    (tr : HttpRequest → Except String SourceResponse) :
    getName (.error e) = .error (.script e)
    ∧ getBaseURL (.error e) = .error (.script e)
    ∧ getLatestUpdates s (.error e) = .error (.script e)
    ∧ getMangaDetails s (.error e) = .error (.script e)
    ∧ getChapters s (.error e) = .error (.script e)
    ∧ getChapter (.error e) = .error (.script e)
    ∧ fetchManga s (.error e) = .error (.script e)
    ∧ login s resp (fun _ _ => .error e) = .error (.script e)
    ∧ requestPhase s b (.error e) tr = .error (.script e) :=
  ⟨rfl, rfl, rfl, rfl, rfl, rfl, rfl, rfl, rfl⟩

/-- C10: the remember flag has no effect: `loginRequest` passes the
same credential table for `remember = true` and `remember = false`,
with `remember_me` hard-coded to `"1"`, so the whole `Login` run is
identical for the two flag values. -/
theorem login_remember_flag_no_effect (u p tf : String) (s : Source) (b : String)
    (reqScript : LValue → ScriptCall)
    (tr : HttpRequest → Except String SourceResponse)
    (parseCall : List (String × List String) → String → ScriptCall) :
    loginParam u p tf true = loginParam u p tf false
    ∧ (∀ r : Bool, (loginParam u p tf r).lookup "remember_me" = some "1")
    ∧ Login s b u p tf true reqScript tr parseCall
        = Login s b u p tf false reqScript tr parseCall := by
  refine ⟨rfl, fun r => rfl, rfl⟩

theorem loginAddValues_at_ne (k q : String) (values : List (LValue × LValue))
    (hq : q ≠ canonicalMIMEHeaderKey k) :
    ∀ h : HeaderMap, loginAddValues k values h q = h q := by
  induction values with
  | nil => intro h; rfl
  | cons iw rest ih =>
    intro h
    show loginAddValues k rest (hAdd h k iw.2.goString) q = h q
    rw [ih (hAdd h k iw.2.goString), hAdd_at_ne h k _ q hq]

theorem loginAddValues_at_self (k : String) (values : List (LValue × LValue)) :
    ∀ h : HeaderMap, loginAddValues k values h (canonicalMIMEHeaderKey k)
      = h (canonicalMIMEHeaderKey k) ++ values.map (fun iw => iw.2.goString) := by
  induction values with
  | nil => intro h; simp [loginAddValues]
  | cons iw rest ih =>
    intro h
    show loginAddValues k rest (hAdd h k iw.2.goString) _ = _
    rw [ih (hAdd h k iw.2.goString), hAdd_at_self]
    simp

theorem loginStep_at_ne (h : HeaderMap) (kv : LValue × LValue) (q : String)
    (hq : q ≠ canonicalMIMEHeaderKey kv.1.goString) :
    loginStep h kv q = h q := by
  obtain ⟨k, v⟩ := kv
  cases v
  case table values =>
    show loginAddValues k.goString values (hDel h k.goString) q = h q
    rw [loginAddValues_at_ne k.goString q values hq (hDel h k.goString),
        hDel_at_ne h k.goString q hq]
  all_goals rfl

theorem loginMerge_append (h : HeaderMap) (l1 l2 : List (LValue × LValue)) :
    loginMerge h (l1 ++ l2) = loginMerge (loginMerge h l1) l2 := by
  unfold loginMerge
  rw [List.foldl_append]

theorem loginMerge_cons (h : HeaderMap) (kv : LValue × LValue)
    (l : List (LValue × LValue)) :
    loginMerge h (kv :: l) = loginMerge (loginStep h kv) l := rfl

theorem loginMerge_at_ne (entries : List (LValue × LValue)) (q : String)
    (hq : ∀ kv ∈ entries, canonicalMIMEHeaderKey kv.1.goString ≠ q) :
    ∀ h : HeaderMap, loginMerge h entries q = h q := by
  induction entries with
  | nil => intro h; rfl
  | cons kv rest ih =>
    intro h
    rw [loginMerge_cons,
        ih (fun kv2 hm => hq kv2 (List.mem_cons_of_mem _ hm)) (loginStep h kv),
        loginStep_at_ne h kv q (Ne.symm (hq kv (List.mem_cons_self _ _)))]

theorem loginMerge_replaces (h : HeaderMap) (pre post : List (LValue × LValue))
    (kK : LValue) (vs : List (LValue × LValue))
    (hdist : ∀ kv ∈ post,
      canonicalMIMEHeaderKey kv.1.goString ≠ canonicalMIMEHeaderKey kK.goString) :
    loginMerge h (pre ++ (kK, .table vs) :: post) (canonicalMIMEHeaderKey kK.goString)
      = vs.map (fun iw => iw.2.goString) := by
  rw [loginMerge_append, loginMerge_cons,
      loginMerge_at_ne post _ hdist (loginStep (loginMerge h pre) (kK, .table vs))]
  show loginAddValues kK.goString vs (hDel (loginMerge h pre) kK.goString) _ = _
  rw [loginAddValues_at_self kK.goString vs (hDel (loginMerge h pre) kK.goString),
      hDel_at_self]
  simp

/-- C1: a Login call whose parse result is a table mentioning header
key `K` with a list of values replaces the whole SessionHeaders value
list for `K` with exactly that list (not an append), and every key the
result does not mention keeps exactly the value list it had before. -/
theorem login_replaces_mentioned_keys
    (s : Source) (resp : SourceResponse)
    (call : List (String × List String) → String → ScriptCall)
    (pre post : List (LValue × LValue)) (kK : LValue) (vs : List (LValue × LValue))
    (hcall : call resp.Header resp.Body = .ok (.table (pre ++ (kK, .table vs) :: post)))
    (hdist : ∀ kv ∈ post,
      canonicalMIMEHeaderKey kv.1.goString ≠ canonicalMIMEHeaderKey kK.goString) :
    ∃ s2, login s resp call = .ok s2
      ∧ s2.header (canonicalMIMEHeaderKey kK.goString)
          = vs.map (fun iw => iw.2.goString)
      ∧ (∀ q, (∀ kv ∈ pre ++ (kK, LValue.table vs) :: post,
            canonicalMIMEHeaderKey kv.1.goString ≠ q) →
          s2.header q = s.header q) := by
  refine ⟨{ s with
      header := loginMerge s.header (pre ++ (kK, .table vs) :: post) }, ?_, ?_, ?_⟩
  · unfold login
    rw [hcall]
  · exact loginMerge_replaces s.header pre post kK vs hdist
  · intro q hq
    exact loginMerge_at_ne _ q hq s.header

/-- Witness for C1: a concrete login flow replaces the two stale
`Cookie` values with the single scripted value and leaves the `Other`
key untouched. -/
theorem login_replaces_mentioned_keys_witness :
    (login loginWitnessSource loginWitnessResp loginWitnessCall).toOption.map
      (fun s2 => (s2.header "Cookie", s2.header "Other"))
      = some (["new"], ["keep"]) := by
  obtain ⟨s2, h1, h2, h3⟩ :=
    login_replaces_mentioned_keys loginWitnessSource loginWitnessResp loginWitnessCall
      [] [] (.str "Cookie") [(.num 1, .str "new")] rfl (by simp)
  have hck : canonicalMIMEHeaderKey (LValue.goString (.str "Cookie")) = "Cookie" := by
    decide
  have h2b : s2.header "Cookie" = ["new"] := by
    rw [← hck]
    exact h2
  have h3b : s2.header "Other" = loginWitnessSource.header "Other" := by
    apply h3
    intro kv hm
    rw [List.nil_append, List.mem_singleton] at hm
    rw [hm]
    decide
  rw [h1]
  have hkeep : loginWitnessSource.header "Other" = ["keep"] := by decide
  simp [Except.toOption, h2b, h3b, hkeep]

/-- C3 (code bug): a singular parse result that is not a record handle
is cast with an unchecked Go type assertion, so the operation ends in a
host-level panic instead of the `ProtocolError` the spec requires. -/
theorem singular_parse_panics_on_non_userdata :
    getMangaDetails plainSource (.ok (.str "not a handle"))
      = .error (.goPanic "interface conversion: lua.LValue is not *lua.LUserData")
    ∧ getChapter (.ok (.table []))
      = .error (.goPanic "interface conversion: lua.LValue is not *lua.LUserData")
    ∧ getChapter (.ok (.userdata (.strMap [])))
      = .error (.goPanic "interface conversion: interface is not *source.Chapter") :=
  ⟨rfl, rfl, rfl⟩

theorem canonical_ct_fixed :
    canonicalMIMEHeaderKey "Content-Type" = "Content-Type" := by decide

theorem canonical_ua_fixed :
    canonicalMIMEHeaderKey "User-Agent" = "User-Agent" := by decide

theorem headerBuilder_at_ua (s : Source) :
    headerBuilder s "User-Agent" = ["Tanoshi/0.1.0"] := by
  unfold headerBuilder
  simp [hSet, canonical_ua_fixed]

theorem headerBuilder_at_ne (s : Source) (q : String) (hq : q ≠ "User-Agent") :
    headerBuilder s q = s.header q := by
  unfold headerBuilder
  exact hSet_at_ne s.header _ _ q (by rw [canonical_ua_fixed]; exact hq)

theorem setDescriptorHeaders_at_ne (hs : List (LValue × LValue)) (q : String)
    (hq : ∀ kv ∈ hs, canonicalMIMEHeaderKey kv.1.goString ≠ q) :
    ∀ h : HeaderMap, setDescriptorHeaders h hs q = h q := by
  induction hs with
  | nil => intro h; rfl
  | cons kv rest ih =>
    intro h
    show setDescriptorHeaders (hSet h kv.1.goString kv.2.goString) rest q = h q
    rw [ih (fun kv2 hm => hq kv2 (List.mem_cons_of_mem _ hm)) _,
        hSet_at_ne h _ _ q (Ne.symm (hq kv (List.mem_cons_self _ _)))]

theorem setDescriptorHeaders_at_mem (k v : LValue) :
    ∀ (hs : List (LValue × LValue)) (h : HeaderMap), (k, v) ∈ hs →
      (hs.map (fun kv => canonicalMIMEHeaderKey kv.1.goString)).Nodup →
      setDescriptorHeaders h hs (canonicalMIMEHeaderKey k.goString) = [v.goString] := by
  intro hs
  induction hs with
  | nil => intro h hmem _; cases hmem
  | cons kv rest ih =>
    intro h hmem hnodup
    rw [List.map_cons, List.nodup_cons] at hnodup
    obtain ⟨hnotin, hnd⟩ := hnodup
    rcases List.mem_cons.mp hmem with heq | hmem2
    · rw [← heq] at hnotin ⊢
      show setDescriptorHeaders (hSet h k.goString v.goString) rest _ = _
      have hkeys : ∀ kv2 ∈ rest,
          canonicalMIMEHeaderKey kv2.1.goString ≠ canonicalMIMEHeaderKey k.goString := by
        intro kv2 hm hcontra
        exact hnotin (hcontra ▸ List.mem_map_of_mem _ hm)
      rw [setDescriptorHeaders_at_ne rest _ hkeys (hSet h k.goString v.goString),
          hSet_at_self]
    · show setDescriptorHeaders (hSet h kv.1.goString kv.2.goString) rest _ = _
      exact ih (hSet h kv.1.goString kv.2.goString) hmem2 hnd

theorem mergedHeaderMap_at_ua (s : Source) (entries : List (LValue × LValue))
    (hq : ∀ hs, rawGetString entries "header" = .table hs →
      ∀ kv ∈ hs, canonicalMIMEHeaderKey kv.1.goString ≠ "User-Agent") :
    mergedHeaderMap s entries "User-Agent" = ["Tanoshi/0.1.0"] := by
  unfold mergedHeaderMap
  cases heq : rawGetString entries "header"
  case table hs =>
    show setDescriptorHeaders (headerBuilder s) hs "User-Agent" = _
    rw [setDescriptorHeaders_at_ne hs _ (hq hs heq) (headerBuilder s)]
    exact headerBuilder_at_ua s
  all_goals exact headerBuilder_at_ua s

theorem mergedHeaderMap_at_ne (s : Source) (entries : List (LValue × LValue))
    (q : String) (hqUA : q ≠ "User-Agent")
    (hq : ∀ hs, rawGetString entries "header" = .table hs →
      ∀ kv ∈ hs, canonicalMIMEHeaderKey kv.1.goString ≠ q) :
    mergedHeaderMap s entries q = s.header q := by
  unfold mergedHeaderMap
  cases heq : rawGetString entries "header"
  case table hs =>
    show setDescriptorHeaders (headerBuilder s) hs q = _
    rw [setDescriptorHeaders_at_ne hs q (hq hs heq) (headerBuilder s)]
    exact headerBuilder_at_ne s q hqUA
  all_goals exact headerBuilder_at_ne s q hqUA

theorem mergedHeaderMap_at_mem (s : Source) (entries hs : List (LValue × LValue))
    (k v : LValue)
    (hhdr : rawGetString entries "header" = .table hs)
    (hmem : (k, v) ∈ hs)
    (hnodup : (hs.map (fun kv => canonicalMIMEHeaderKey kv.1.goString)).Nodup) :
    mergedHeaderMap s entries (canonicalMIMEHeaderKey k.goString) = [v.goString] := by
  unfold mergedHeaderMap
  rw [hhdr]
  exact setDescriptorHeaders_at_mem k v hs (headerBuilder s) hmem hnodup

theorem encodeBody_at_ne (hm : HeaderMap) (b : String)
    (entries : List (LValue × LValue)) (q : String) (hq : q ≠ "Content-Type") :
    (encodeBody hm b entries).2 q = hm q := by
  unfold encodeBody
  split
  · split
    · show hSet hm "Content-Type" (formDataContentType b) q = hm q
      exact hSet_at_ne hm _ _ q (by rw [canonical_ct_fixed]; exact hq)
    · rfl
  · rfl

theorem encodeBody_fires (hm : HeaderMap) (b : String)
    (entries ds : List (LValue × LValue))
    (hdata : rawGetString entries "data" = .table ds)
    (hct : hGet hm "Content-Type" = "multipart/form-data") :
    (encodeBody hm b entries).2 = hSet hm "Content-Type" (formDataContentType b) := by
  unfold encodeBody
  rw [hdata]
  simp [hct]

theorem encodeBody_nofire (hm : HeaderMap) (b : String)
    (entries : List (LValue × LValue))
    (h : ∀ ds, rawGetString entries "data" = .table ds →
      hGet hm "Content-Type" ≠ "multipart/form-data") :
    (encodeBody hm b entries).2 = hm := by
  unfold encodeBody
  split
  · rename_i ds heq
    rw [if_neg (h ds heq)]
  · rfl

theorem createRequest_header (s : Source) (b : String)
    (entries : List (LValue × LValue)) (r : HttpRequest)
    (hok : createRequest s b (.table entries) = .ok r) :
    r.header = (encodeBody (mergedHeaderMap s entries) b entries).2 := by
  simp only [createRequest] at hok
  split at hok
  · simp at hok
  · cases hok
    rfl

/-- Counterexample to C2 as stated: a connector whose SessionHeaders
carry `User-Agent: SessionAgent` and a descriptor that does not set
`User-Agent` produce an outbound `User-Agent` of `Tanoshi/0.1.0` (the
engine default), not the session value. -/
theorem ua_default_overrides_session_cex :
    sessionUASource.header "User-Agent" = ["SessionAgent"]
    ∧ builtHeaderValues (createRequest sessionUASource "b" plainDescriptor) "User-Agent"
        = some ["Tanoshi/0.1.0"]
    ∧ (some ["Tanoshi/0.1.0"] : Option (List String)) ≠ some ["SessionAgent"] := by
  refine ⟨by decide, by decide, by decide⟩

/-- C2 (amended): outbound precedence is descriptor header, then engine
default `User-Agent`, then SessionHeaders: when the descriptor does not
set `User-Agent` the outbound `User-Agent` is always `Tanoshi/0.1.0`
even if SessionHeaders carry one, and a session value survives exactly
for keys other than `User-Agent` (and other than the multipart
`Content-Type` rewrite) that the descriptor does not set. -/
theorem header_precedence_amended (s : Source) (b : String)
    (entries : List (LValue × LValue)) (r : HttpRequest)
    (hok : createRequest s b (.table entries) = .ok r)
    (hnoUA : ∀ hs, rawGetString entries "header" = .table hs →
      ∀ kv ∈ hs, canonicalMIMEHeaderKey kv.1.goString ≠ "User-Agent") :
    r.header "User-Agent" = ["Tanoshi/0.1.0"]
    ∧ (∀ q, q ≠ "User-Agent" → q ≠ "Content-Type" →
        (∀ hs, rawGetString entries "header" = .table hs →
          ∀ kv ∈ hs, canonicalMIMEHeaderKey kv.1.goString ≠ q) →
        r.header q = s.header q) := by
  have hh := createRequest_header s b entries r hok
  constructor
  · rw [hh, encodeBody_at_ne _ _ _ _ (by decide), mergedHeaderMap_at_ua s entries hnoUA]
  · intro q hqUA hqCT hq
    rw [hh, encodeBody_at_ne _ _ _ _ hqCT, mergedHeaderMap_at_ne s entries q hqUA hq]

/-- Witness for C2 (amended) at a concrete connector and descriptor. -/
theorem header_precedence_amended_witness :
    builtHeaderValues (createRequest sessionUASource "wb" overrideDescriptor) "User-Agent"
      = some ["DescriptorAgent"]
    ∨ builtHeaderValues (createRequest sessionUASource "wb"
        (.table [(.str "method", .str "GET"), (.str "url", .str "http://w.example")]))
        "User-Agent" = some ["Tanoshi/0.1.0"] := by
  right
  obtain ⟨r, hr⟩ : ∃ r, createRequest sessionUASource "wb"
      (.table [(.str "method", .str "GET"), (.str "url", .str "http://w.example")])
      = .ok r := ⟨_, rfl⟩
  have h := header_precedence_amended sessionUASource "wb"
      [(.str "method", .str "GET"), (.str "url", .str "http://w.example")] r hr
      (by intro hs hcontra kv _; cases hcontra)
  unfold builtHeaderValues
  rw [hr]
  simp [Except.toOption, h.1]

/-- Counterexample to C5 as stated: a descriptor header entry
`Content-Type: multipart/form-data` together with a `data` table does
not survive to the outbound request; the multipart encoder's
boundary-bearing value replaces it. -/
theorem descriptor_content_type_multipart_cex :
    builtHeaderValues (createRequest plainSource "bnd" multipartDescriptor) "Content-Type"
      = some ["multipart/form-data; boundary=bnd"]
    ∧ (some ["multipart/form-data; boundary=bnd"] : Option (List String))
        ≠ some ["multipart/form-data"] := by
  refine ⟨by decide, by decide⟩

/-- C5 (amended): every descriptor header entry overrides any
SessionHeaders or default value of the same (canonical) name, with one
exception forced by the body encoder: a `Content-Type` entry whose
value is exactly `multipart/form-data`, on a descriptor that also
carries a `data` table, ends up as the encoder's
`multipart/form-data; boundary=...` value instead. -/
theorem descriptor_header_overrides_amended (s : Source) (b : String)
    (entries hs : List (LValue × LValue)) (k v : LValue) (r : HttpRequest)
    (hhdr : rawGetString entries "header" = .table hs)
    (hnodup : (hs.map (fun kv => canonicalMIMEHeaderKey kv.1.goString)).Nodup)
    (hmem : (k, v) ∈ hs)
    (hok : createRequest s b (.table entries) = .ok r) :
    ((canonicalMIMEHeaderKey k.goString = "Content-Type"
        ∧ v.goString = "multipart/form-data"
        ∧ isTableB (rawGetString entries "data") = true) →
      r.header (canonicalMIMEHeaderKey k.goString) = [formDataContentType b])
    ∧ (¬ (canonicalMIMEHeaderKey k.goString = "Content-Type"
        ∧ v.goString = "multipart/form-data"
        ∧ isTableB (rawGetString entries "data") = true) →
      r.header (canonicalMIMEHeaderKey k.goString) = [v.goString]) := by
  have hh := createRequest_header s b entries r hok
  have hmm := mergedHeaderMap_at_mem s entries hs k v hhdr hmem hnodup
  constructor
  · rintro ⟨hct, hmp, hdata⟩
    cases hdv : rawGetString entries "data"
    case table ds =>
      have hget : hGet (mergedHeaderMap s entries) "Content-Type"
          = "multipart/form-data" := by
        unfold hGet
        rw [canonical_ct_fixed, ← hct, hmm, hmp]
      rw [hh, encodeBody_fires _ b entries ds hdv hget, hct]
      simp [hSet, canonical_ct_fixed]
    all_goals (rw [hdv] at hdata; simp [isTableB] at hdata)
  · intro hnot
    rw [hh]
    cases hdv : rawGetString entries "data"
    case table ds =>
      by_cases hck : canonicalMIMEHeaderKey k.goString = "Content-Type"
      · have hvne : v.goString ≠ "multipart/form-data" := by
          intro hv
          exact hnot ⟨hck, hv, by rw [hdv]; rfl⟩
        have hget : hGet (mergedHeaderMap s entries) "Content-Type"
            ≠ "multipart/form-data" := by
          unfold hGet
          rw [canonical_ct_fixed, ← hck, hmm]
          exact hvne
        rw [encodeBody_nofire _ _ _ (fun ds2 _ => hget), hmm]
      · by_cases hfire : hGet (mergedHeaderMap s entries) "Content-Type"
            = "multipart/form-data"
        · rw [encodeBody_fires _ b entries ds hdv hfire,
              hSet_at_ne _ _ _ _ (by rw [canonical_ct_fixed]; exact hck), hmm]
        · rw [encodeBody_nofire _ _ _ (fun ds2 _ => hfire), hmm]
    all_goals
      rw [encodeBody_nofire _ _ _ (by intro ds2 hds2; rw [hdv] at hds2; cases hds2), hmm]

/-- Witness for C5 (amended): a descriptor `User-Agent` entry wins over
both the session value and the engine default. -/
theorem descriptor_header_overrides_amended_witness :
    builtHeaderValues (createRequest sessionUASource "b" overrideDescriptor) "User-Agent"
      = some ["DescriptorAgent"] := by
  obtain ⟨r, hr⟩ : ∃ r, createRequest sessionUASource "b" overrideDescriptor = .ok r :=
    ⟨_, rfl⟩
  have h := descriptor_header_overrides_amended sessionUASource "b"
      [(.str "method", .str "GET"), (.str "url", .str "http://e.example"),
       (.str "header", .table [(.str "User-Agent", .str "DescriptorAgent")])]
      [(.str "User-Agent", .str "DescriptorAgent")]
      (.str "User-Agent") (.str "DescriptorAgent") r rfl (by simp)
      (List.mem_singleton.mpr rfl) hr
  have h2 := h.2 (by rintro ⟨hct, _, _⟩; exact absurd hct (by decide))
  have hca : canonicalMIMEHeaderKey (LValue.goString (.str "User-Agent"))
      = "User-Agent" := by decide
  rw [hca] at h2
  unfold builtHeaderValues
  rw [hr]
  simp [Except.toOption]
  exact h2

/-- Counterexample to C7 as stated: a descriptor with no `method` and
no `url` is not rejected with a `ProtocolError`; `createRequest`
succeeds, reading both fields as the string `"nil"`, and the engine
goes on to perform the network call. -/
theorem missing_method_url_no_error_cex :
    builtMethodUrl (createRequest plainSource "b" (.table [])) = some ("nil", "nil")
    ∧ (createRequest plainSource "b" (.table [])).toOption.isSome = true := by
  refine ⟨by decide, by decide⟩

/-- C7 (amended): a descriptor whose `method` or `url` field is absent
is not detected: `RawGetString` yields `LNil`, which stringifies to
`"nil"`, and the request is built with method `"nil"` and url `"nil"`
(both accepted by request construction) and handed to the transport. -/
theorem missing_method_url_amended (s : Source) (b : String)
    (entries : List (LValue × LValue))
    (hm : rawGetString entries "method" = .nil)
    (hu : rawGetString entries "url" = .nil) :
    builtMethodUrl (createRequest s b (.table entries)) = some ("nil", "nil") := by
  have hvm : validMethod "nil" = true := by decide
  have hup : urlParseable "nil" = true := by decide
  have hnr : newRequest "nil" "nil" (encodeBody (mergedHeaderMap s entries) b entries).1
      = .ok { method := "nil", url := "nil",
              body := (encodeBody (mergedHeaderMap s entries) b entries).1,
              header := emptyHeader } := by
    unfold newRequest
    rw [if_neg (by decide : ¬ ("nil" : String) = ""), if_pos hvm, if_pos hup]
  unfold builtMethodUrl
  simp only [createRequest, hm, hu, LValue.goString]
  rw [hnr]
  rfl

/-- Witness for C7 (amended): a concrete descriptor carrying only an
unrelated field builds a request with method and url `"nil"`. -/
theorem missing_method_url_amended_witness :
    builtMethodUrl (createRequest sessionUASource "wb" (.table [(.str "x", .str "y")]))
      = some ("nil", "nil") :=
  missing_method_url_amended sessionUASource "wb" [(.str "x", .str "y")] rfl rfl

/-- Counterexample to C4 as stated: a script whose `name` entry point
returns the empty string loads successfully into a Connector whose
`Name` is empty — `Load` performs no non-emptiness check. -/
theorem load_accepts_empty_name_cex :
    LoadSourceFromPath (.ok ()) (.ok (.str "")) (.ok (.str "http://x"))
      = .ok loadedEmptyNameSource
    ∧ loadedEmptyNameSource.Name = "" :=
  ⟨rfl, rfl⟩

/-- C4 (amended): `Load` never returns a partially-initialized
Connector: it returns one exactly when the script ran and both the
`name` and `base_url` entry points produced string-convertible values,
and then `Name`/`URL` are exactly those strings — which may be empty;
an entry-point result that is neither string nor number escapes as a
host-level fault (an unprotected Lua type-error raise), not as a
returned load error. -/
theorem load_characterization (doFile : Except String Unit)
    (nameCall urlCall : ScriptCall) :
    (∀ s, LoadSourceFromPath doFile nameCall urlCall = .ok s →
      doFile = .ok () ∧ getName nameCall = .ok s.Name
        ∧ getBaseURL urlCall = .ok s.URL ∧ s.header = emptyHeader)
    ∧ (∀ v m, doFile = .ok () → nameCall = .ok v →
        checkString v = .error (.goPanic m) →
        LoadSourceFromPath doFile nameCall urlCall = .error (.goPanic m)) := by
  constructor
  · intro s hs
    unfold LoadSourceFromPath at hs
    split at hs
    · simp at hs
    · split at hs
      · simp at hs
      · rename_i nm hnm
        split at hs
        · simp at hs
        · rename_i url hurl
          cases hs
          exact ⟨rfl, hnm, hurl, rfl⟩
  · intro v m hdo hnc hcs
    have hn : getName nameCall = .error (.goPanic m) := by
      unfold getName
      rw [hnc]
      exact hcs
    unfold LoadSourceFromPath
    rw [hdo, hn]

/-- Witness for C4 (amended): a `name` entry point returning a table
makes `Load` end in the host-level `CheckString` fault. -/
theorem load_characterization_witness :
    LoadSourceFromPath (.ok ()) (.ok (.table [])) (.ok (.str "http://x"))
      = .error (.goPanic "string expected") :=
  (load_characterization (.ok ()) (.ok (.table [])) (.ok (.str "http://x"))).2
    (.table []) "string expected" rfl rfl rfl

/-- C9: a successful `GetChapter c` returns the chapter the parse
phase produced with only its ID overwritten by the input's ID — so the
output ID always equals `c`'s ID no matter what the script set, and
the connector's name is not stamped onto the result's `Source`. -/
theorem getChapter_ok_inv : ∀ (call : ScriptCall) (pc : Chapter),
    getChapter call = .ok pc → call = .ok (.userdata (.chapter pc)) := by
  intro call pc h
  cases call with
  | error e => simp [getChapter] at h
  | ok lv =>
    cases lv
    case userdata g =>
      cases g
      case chapter c2 =>
        simp [getChapter] at h
        rw [h]
      all_goals simp [getChapter] at h
    all_goals simp [getChapter] at h

theorem getChapter_preserves_input_id (s : Source) (b : String)
    (reqCall : ScriptCall)
    (tr : HttpRequest → Except String SourceResponse)
    (parseCall : String → ScriptCall) (c ch : Chapter)
    (hok : GetChapter s b reqCall tr parseCall c = .ok ch) :
    ch.ID = c.ID
    ∧ ∃ res pc, requestPhase s b reqCall tr = .ok res
        ∧ parseCall res.Body = .ok (.userdata (.chapter pc))
        ∧ ch = { pc with ID := c.ID } := by
  unfold GetChapter at hok
  split at hok
  · simp at hok
  · rename_i res hres
    split at hok
    · simp at hok
    · rename_i pc0 hpc
      cases hok
      have hcall := getChapter_ok_inv (parseCall res.Body) pc0 hpc
      exact ⟨rfl, res, pc0, hres, hcall, rfl⟩

/-- Witness for C9: input ID 42, parse phase sets ID 7 and its own
`Source`; the result carries ID 42 and the script's `Source` value,
untouched by the connector name (`plainSource.Name = "src"`). -/
theorem getChapter_preserves_input_id_witness :
    (GetChapter plainSource "b" (.ok plainDescriptor) wTransport
        (fun _ => .ok (.userdata (.chapter wChapterParsed))) wChapterIn).toOption.map
      (fun ch => (ch.ID, ch.Source)) = some (42, "ScriptSource") := by
  have h := getChapter_preserves_input_id plainSource "b" (.ok plainDescriptor)
      wTransport (fun _ => .ok (.userdata (.chapter wChapterParsed))) wChapterIn
      { wChapterParsed with ID := wChapterIn.ID } rfl
  obtain ⟨hid, res, pc, hreq, hparse, hch⟩ := h
  rw [show GetChapter plainSource "b" (.ok plainDescriptor) wTransport
      (fun _ => .ok (.userdata (.chapter wChapterParsed))) wChapterIn
      = .ok { wChapterParsed with ID := wChapterIn.ID } from rfl]
  simp only [Except.toOption, Option.map]
  rw [hid]
  rfl
